import Mathlib

/-!
# go-fixerio: a verification development

A shallow embedding of `client.go` and `types.go` of the `gofixerio` package,
followed by theorems about client construction, URL building and the mapping
of API error envelopes.

Modelling conventions.

* A Go `string` is a Lean `String`; `+` and `bytes.Buffer.WriteString` are `++`.
* A Go `error` is `Option GoError` (`none` is `nil`); an error is observed
  through the text its `Error()` method returns.
* A Go `map[string]string` is the list of its entries (keys pairwise distinct).
  The order in which a `range` loop visits the entries is chosen by the Go
  runtime and is not specified by the language; it is an explicit parameter
  (`MapRange`).
* Functions of the Go standard library and of `github.com/pkg/errors` are not
  part of the package. The pure string helpers are modelled after their
  documentation; the HTTP transport, the JSON codec, the Unicode case table and
  the float formatter are parameters.
-/

namespace gofixerio

/-! ## Library functions used by the package -/

/-- A Go error value, observed through the text returned by `Error()`. -/
structure GoError where
  msg : String
deriving DecidableEq, Repr

/-- The function `errors.New` of `github.com/pkg/errors`: an error with the given text. -/
def errorsNew (message : String) : Option GoError :=
  some ⟨message⟩

/-- The function `errors.Wrap` of `github.com/pkg/errors`: `nil` for a `nil`
error, otherwise an error whose text is `message + ": " + err.Error()`. -/
def errorsWrap (err : Option GoError) (message : String) : Option GoError :=
  match err with
  | none => none
  | some e => some ⟨message ++ ": " ++ e.msg⟩

/-- The function `strings.ToUpper`: an ASCII-only string has its letters
`a`..`z` moved to `A`..`Z` and every other byte kept; any other string is
mapped rune by rune through `unicode.ToUpper`, a table of the standard library
taken here as the parameter `unicodeToUpper`. -/
def ToUpper (unicodeToUpper : Char → Char) (s : String) : String :=
  if s.data.all (fun c => c.toNat < 128) then
    String.mk (s.data.map fun c =>
      if 97 ≤ c.toNat ∧ c.toNat ≤ 122 then Char.ofNat (c.toNat - 32) else c)
  else
    String.mk (s.data.map unicodeToUpper)

/-- The function `strings.Join`: the elements separated by `sep`. -/
def Join : List String → String → String
  | [], _ => ""
  | [a], _ => a
  | a :: b :: rest, sep => a ++ sep ++ Join (b :: rest) sep

/-- The function `strconv.Itoa`: the decimal text of an integer, with a
leading `-` for a negative one. -/
def Itoa (i : Int) : String :=
  match i with
  | Int.ofNat n => Nat.repr n
  | Int.negSucc n => "-" ++ Nat.repr (n + 1)

/-- A Go `map[string]string`, as the list of its entries. -/
abbrev GoMap := List (String × String)

/-- The keys of a map are pairwise distinct. -/
def GoMap.WellFormed (m : GoMap) : Prop :=
  (m.map Prod.fst).Nodup

instance (m : GoMap) : Decidable m.WellFormed :=
  inferInstanceAs (Decidable (m.map Prod.fst).Nodup)

/-- The order in which `range` visits the entries of a map: some rearrangement
of the entries, chosen by the runtime. -/
structure MapRange where
  order : GoMap → GoMap
  perm : ∀ m : GoMap, List.Perm (order m) m

/-- A `float64`, as its IEEE-754 bit pattern. -/
structure Float64 where
  bits : Nat
deriving DecidableEq, Repr

/-- The string `sub` occurs in `s` as a contiguous substring. -/
def Contains (s sub : String) : Prop :=
  sub.data <:+: s.data

instance (s sub : String) : Decidable (Contains s sub) :=
  inferInstanceAs (Decidable (sub.data <:+: s.data))

/-! ## client.go -/

/-- FixerIO represents a client instance. -/
structure FixerIO where
  APIKey : String
  Base : String
  Secure : Bool
deriving DecidableEq, Repr

/-- BaseURL is the main URL for accessing the API. -/
def BaseURL : String := "data.fixer.io"

/-- The function `wrapError`. -/
def wrapError (err : Option GoError) : Option GoError :=
  errorsWrap err "gofixerio error"

/-- The constructor `New`: the pair of the returned client pointer and error. -/
def New (unicodeToUpper : Char → Char) (APIKey : String) (Base : String) (Secure : Bool) :
    Option FixerIO × Option GoError :=
  if APIKey = "" then
    (none, wrapError (errorsNew "APIKey is required"))
  else
    (some { APIKey := APIKey, Base := ToUpper unicodeToUpper Base, Secure := Secure }, none)

/-- The method `SetBase`: the client after the call (which is also the returned pointer). -/
def SetBase (unicodeToUpper : Char → Char) (f : FixerIO) (base : String) : FixerIO :=
  { f with Base := ToUpper unicodeToUpper base }

/-- The body of the `range` loop of `getURL`. -/
def getURL.step (url : String) (entry : String × String) : String :=
  if entry.2 ≠ "" then url ++ ("&" ++ entry.1 ++ "=" ++ entry.2) else url

/-- The method `getURL`. -/
def getURL (rt : MapRange) (f : FixerIO) (method : String) (params : GoMap) : String :=
  let url := ""
  let url := if f.Secure then url ++ "https://" else url ++ "http://"
  let url := url ++ BaseURL
  let url := url ++ "/api"
  let url := url ++ ("/" ++ method)
  let url := url ++ "?access_key="
  let url := url ++ f.APIKey
  let url := url ++ "&base="
  let url := url ++ f.Base
  (rt.order params).foldl getURL.step url


/-! ## types.go -/

/-- The map type `symbols` (currency code to display name). -/
abbrev symbols := List (String × String)

/-- The map type `rates` (currency code to rate). -/
abbrev rates := List (String × Float64)

/-- The map type `ratesNested` (date to rates). -/
abbrev ratesNested := List (String × rates)

/-- The struct `conversionQuery`. -/
structure conversionQuery where
  From : String
  To : String
  Amount : Float64
deriving DecidableEq, Repr

/-- The struct `conversionInfo`. -/
structure conversionInfo where
  Timestamp : Int
  Rate : Float64
deriving DecidableEq, Repr

/-- ResponseSuccess represents the success of the request. -/
structure ResponseSuccess where
  Success : Bool
deriving DecidableEq, Repr

/-- ResponseSymbols represents GetSymbols response. -/
structure ResponseSymbols where
  embeddedSuccess : ResponseSuccess
  Symbols : symbols
deriving DecidableEq, Repr

/-- ResponseLatest represents GetLatest response. -/
structure ResponseLatest where
  embeddedSuccess : ResponseSuccess
  Timestamp : Int
  Base : String
  Date : String
  Rates : rates
deriving DecidableEq, Repr

/-- ResponseHistorical represents GetHistorical response. -/
structure ResponseHistorical where
  embeddedSuccess : ResponseSuccess
  embeddedLatest : ResponseLatest
  Historical : Bool
deriving DecidableEq, Repr

/-- ResponseConversion represents GetConversion response. -/
structure ResponseConversion where
  embeddedSuccess : ResponseSuccess
  Query : conversionQuery
  Info : conversionInfo
  Historical : Bool
  Date : String
  Result : Float64
deriving DecidableEq, Repr

/-- ResponseTimeseries represents GetTimeseries response. -/
structure ResponseTimeseries where
  embeddedSuccess : ResponseSuccess
  Timeseries : Bool
  StartDate : String
  EndDate : String
  Base : String
  Rates : ratesNested
deriving DecidableEq, Repr

/-- ResponseFluctuation represents GetFluctuation response. -/
structure ResponseFluctuation where
  embeddedSuccess : ResponseSuccess
  Fluctuation : Bool
  StartDate : String
  EndDate : String
  Base : String
  Rates : ratesNested
deriving DecidableEq, Repr

/-- ResponseErrorDetail represents details of errored response (the field
`Type` of the source is `Type_`). -/
structure ResponseErrorDetail where
  Code : Int
  Type_ : String
  Info : String
deriving DecidableEq, Repr

/-- ResponseError represents errored response. -/
structure ResponseError where
  embeddedSuccess : ResponseSuccess
  Error : ResponseErrorDetail
deriving DecidableEq, Repr

/-- The field `Success` promoted from the embedded `ResponseSuccess`. -/
def ResponseError.Success (r : ResponseError) : Bool :=
  r.embeddedSuccess.Success

/-! Zero values of the declared variables (`var response T`). -/

/-- The zero `float64`, `+0.0`. -/
def Float64.zero : Float64 := ⟨0⟩

/-- The zero value of `ResponseError`. -/
def ResponseError.zero : ResponseError := ⟨⟨false⟩, ⟨0, "", ""⟩⟩

/-- The zero value of `ResponseSymbols`. -/
def ResponseSymbols.zero : ResponseSymbols := ⟨⟨false⟩, []⟩

/-- The zero value of `ResponseLatest`. -/
def ResponseLatest.zero : ResponseLatest := ⟨⟨false⟩, 0, "", "", []⟩

/-- The zero value of `ResponseHistorical`. -/
def ResponseHistorical.zero : ResponseHistorical := ⟨⟨false⟩, ResponseLatest.zero, false⟩

/-- The zero value of `ResponseConversion`. -/
def ResponseConversion.zero : ResponseConversion :=
  ⟨⟨false⟩, ⟨"", "", Float64.zero⟩, ⟨0, Float64.zero⟩, false, "", Float64.zero⟩

/-- The zero value of `ResponseTimeseries`. -/
def ResponseTimeseries.zero : ResponseTimeseries := ⟨⟨false⟩, false, "", "", "", []⟩

/-- The zero value of `ResponseFluctuation`. -/
def ResponseFluctuation.zero : ResponseFluctuation := ⟨⟨false⟩, false, "", "", "", []⟩

/-! ## The platform: HTTP transport and JSON codec -/

/-- What the package calls outside itself when it performs a request.
`httpGet` is `http.Get` (a response or a non-nil error), `readAll` is
`ioutil.ReadAll` applied to the response body (the bytes read and an error,
possibly nil), and each `unmarshal` field is `json.Unmarshal` at one target
type: from the body and the current value of the target, the error (possibly
nil) and the value of the target after the call. -/
structure Platform where
  Response : Type
  httpGet : String → Except GoError Response
  readAll : Response → String × Option GoError
  unmarshalError : String → ResponseError → Option GoError × ResponseError
  unmarshalSymbols : String → ResponseSymbols → Option GoError × ResponseSymbols
  unmarshalLatest : String → ResponseLatest → Option GoError × ResponseLatest
  unmarshalHistorical : String → ResponseHistorical → Option GoError × ResponseHistorical
  unmarshalConversion : String → ResponseConversion → Option GoError × ResponseConversion
  unmarshalTimeseries : String → ResponseTimeseries → Option GoError × ResponseTimeseries
  unmarshalFluctuation : String → ResponseFluctuation → Option GoError × ResponseFluctuation

/-! ## client.go: requests -/

/-- The method `makeRequest`. The target `result` is passed by pointer in the
source; here its value after the call is returned next to the error.
`unmarshal` is `json.Unmarshal` at the type of the target. -/
def makeRequest {R : Type} (p : Platform) (unmarshal : String → R → Option GoError × R)
    (url : String) (result : R) : Option GoError × R :=
  match p.httpGet url with
  | Except.error err => (wrapError (some err), result)
  | Except.ok response =>
    match p.readAll response with
    | (_, some err) => (wrapError (some err), result)
    | (body, none) =>
      match p.unmarshalError body ResponseError.zero with
      | (some err, _) => (wrapError (some err), result)
      | (none, responseError) =>
        if !responseError.Success && responseError.Error.Code != 0 then
          if responseError.Error.Info ≠ "" then
            (wrapError (errorsNew ("fixer.io request error with info: " ++ responseError.Error.Info)), result)
          else if responseError.Error.Type_ ≠ "" then
            (wrapError (errorsNew ("fixer.io request error with type: " ++ responseError.Error.Type_)), result)
          else
            (wrapError (errorsNew ("fixer.io request error with code: " ++ Itoa responseError.Error.Code)), result)
        else
          match unmarshal body result with
          | (some err, result) => (wrapError (some err), result)
          | (none, result) => (none, result)

/-- The local `url` of `GetSymbols`. -/
def GetSymbols.url (rt : MapRange) (f : FixerIO) : String :=
  getURL rt f "symbols" []

/-- The method `GetSymbols`. -/
def GetSymbols (p : Platform) (rt : MapRange) (f : FixerIO) :
    Option ResponseSymbols × Option GoError :=
  let url := GetSymbols.url rt f
  match makeRequest p p.unmarshalSymbols url ResponseSymbols.zero with
  | (some err, _) => (none, some err)
  | (none, response) => (some response, none)

/-- The local `url` of `GetLatest`. -/
def GetLatest.url (rt : MapRange) (f : FixerIO) (symbols : List String) : String :=
  getURL rt f "latest" [("symbols", Join symbols ",")]

/-- The method `GetLatest`. -/
def GetLatest (p : Platform) (rt : MapRange) (f : FixerIO) (symbols : List String) :
    Option ResponseLatest × Option GoError :=
  let url := GetLatest.url rt f symbols
  match makeRequest p p.unmarshalLatest url ResponseLatest.zero with
  | (some err, _) => (none, some err)
  | (none, response) => (some response, none)

/-- The local `url` of `GetHistorical`. -/
def GetHistorical.url (rt : MapRange) (f : FixerIO) (date : String) (symbols : List String) :
    String :=
  getURL rt f date [("symbols", Join symbols ",")]

/-- The method `GetHistorical`. -/
def GetHistorical (p : Platform) (rt : MapRange) (f : FixerIO) (date : String)
    (symbols : List String) : Option ResponseHistorical × Option GoError :=
  let url := GetHistorical.url rt f date symbols
  match makeRequest p p.unmarshalHistorical url ResponseHistorical.zero with
  | (some err, _) => (none, some err)
  | (none, response) => (some response, none)

/-- The local `url` of `GetConversion`; `formatFloat` is
`strconv.FormatFloat(_, 'f', -1, 64)`. -/
def GetConversion.url (formatFloat : Float64 → String) (rt : MapRange) (f : FixerIO)
    (src dst : String) (amount : Float64) (date : String) : String :=
  getURL rt f "convert"
    [("from", src), ("to", dst), ("amount", formatFloat amount), ("date", date)]

/-- The method `GetConversion` (its arguments `from` and `to` are `src` and `dst`). -/
def GetConversion (p : Platform) (formatFloat : Float64 → String) (rt : MapRange) (f : FixerIO)
    (src dst : String) (amount : Float64) (date : String) :
    Option ResponseConversion × Option GoError :=
  let url := GetConversion.url formatFloat rt f src dst amount date
  match makeRequest p p.unmarshalConversion url ResponseConversion.zero with
  | (some err, _) => (none, some err)
  | (none, response) => (some response, none)

/-- The local `url` of `GetTimeseries`. -/
def GetTimeseries.url (rt : MapRange) (f : FixerIO) (startDate endDate : String) : String :=
  getURL rt f "timeseries" [("start_date", startDate), ("end_data", endDate)]

/-- The method `GetTimeseries`. -/
def GetTimeseries (p : Platform) (rt : MapRange) (f : FixerIO) (startDate endDate : String) :
    Option ResponseTimeseries × Option GoError :=
  let url := GetTimeseries.url rt f startDate endDate
  match makeRequest p p.unmarshalTimeseries url ResponseTimeseries.zero with
  | (some err, _) => (none, some err)
  | (none, response) => (some response, none)

/-- The local `url` of `GetFluctuation`. -/
def GetFluctuation.url (rt : MapRange) (f : FixerIO) (startDate endDate : String) : String :=
  getURL rt f "fluctuation" [("start_date", startDate), ("end_data", endDate)]

/-- The method `GetFluctuation`. -/
def GetFluctuation (p : Platform) (rt : MapRange) (f : FixerIO) (startDate endDate : String) :
    Option ResponseFluctuation × Option GoError :=
  let url := GetFluctuation.url rt f startDate endDate
  match makeRequest p p.unmarshalFluctuation url ResponseFluctuation.zero with
  | (some err, _) => (none, some err)
  | (none, response) => (some response, none)

/-! ## Vocabulary of the statements -/

/-- The fixed head of every request URL: scheme, host, path, method segment,
and the `access_key` and `base` parameters. -/
def urlHead (f : FixerIO) (method : String) : String :=
  (if f.Secure then "https://" else "http://") ++ "data.fixer.io/api/" ++ method
    ++ "?access_key=" ++ f.APIKey ++ "&base=" ++ f.Base

/-- The text `&name=value` of each entry of a list, in the order of the list. -/
def segments : GoMap → String
  | [] => ""
  | e :: rest => "&" ++ e.1 ++ "=" ++ e.2 ++ segments rest

/-- A runtime whose `range` visits the entries in the order they were written. -/
def writtenOrder : MapRange :=
  ⟨fun m => m, fun m => List.Perm.refl m⟩

/-- A runtime whose `range` visits the entries in the opposite order. -/
def reversedOrder : MapRange :=
  ⟨fun m => m.reverse, fun m => List.reverse_perm m⟩

/-- A client with key `k`, base `EUR`, plain HTTP. -/
def sampleClient : FixerIO :=
  { APIKey := "k", Base := "EUR", Secure := false }

/-- The request to `url` succeeds at the transport and its body, read in
full, is `body`. -/
def Delivers (p : Platform) (url body : String) : Prop :=
  ∃ response : p.Response,
    p.httpGet url = Except.ok response ∧ p.readAll response = (body, none)

/-- The error text the specification gives for a reported failure, by
priority: the info, else the type, else the code in decimal. -/
def apiErrorText (d : ResponseErrorDetail) : String :=
  if d.Info ≠ "" then "gofixerio error: fixer.io request error with info: " ++ d.Info
  else if d.Type_ ≠ "" then "gofixerio error: fixer.io request error with type: " ++ d.Type_
  else "gofixerio error: fixer.io request error with code: " ++ Itoa d.Code

/-- What a query method returns from the outcome of `makeRequest`. -/
def finish {R : Type} (out : Option GoError × R) : Option R × Option GoError :=
  match out with
  | (some err, _) => (none, some err)
  | (none, response) => (some response, none)

/-- The body `{"success":false,"error":{"code":104,"info":"plan limit"}}`. -/
def planLimitBody : String :=
  "\x7b\"success\":false,\"error\":\x7b\"code\":104,\"info\":\"plan limit\"\x7d\x7d"

/-- The body `{"success":false,"error":{"code":104,"type":"invalid_access_key","info":""}}`. -/
def invalidKeyBody : String :=
  "\x7b\"success\":false,\"error\":\x7b\"code\":104,\"type\":\"invalid_access_key\",\"info\":\"\"\x7d\x7d"

/-- The body `{}`. -/
def emptyObjectBody : String := "\x7b\x7d"

/-- The envelope `planLimitBody` decodes to. -/
def planLimitEnvelope : ResponseError := ⟨⟨false⟩, ⟨104, "", "plan limit"⟩⟩

/-- The envelope `invalidKeyBody` decodes to. -/
def invalidKeyEnvelope : ResponseError := ⟨⟨false⟩, ⟨104, "invalid_access_key", ""⟩⟩

/-- A JSON codec for `ResponseError`, defined on the three bodies above, where
it returns what `json.Unmarshal` returns; any other body is reported as
undecodable. -/
def sampleUnmarshalError (body : String) (r : ResponseError) : Option GoError × ResponseError :=
  if body = planLimitBody then (none, ⟨⟨false⟩, ⟨104, r.Error.Type_, "plan limit"⟩⟩)
  else if body = invalidKeyBody then (none, ⟨⟨false⟩, ⟨104, "invalid_access_key", ""⟩⟩)
  else if body = emptyObjectBody then (none, r)
  else (some ⟨"invalid character"⟩, r)

/-- A JSON codec for the result records, defined on the three bodies above:
none of them has a member that a result record reads other than `success`,
which is false or absent, so the target (a zero value in every call) is left
as it is; any other body is reported as undecodable. -/
def sampleUnmarshal {R : Type} (body : String) (r : R) : Option GoError × R :=
  if body = planLimitBody ∨ body = invalidKeyBody ∨ body = emptyObjectBody then (none, r)
  else (some ⟨"invalid character"⟩, r)

/-- A synthetic transport that answers every request with `body`, with the
sample codecs. -/
def syntheticPlatform (body : String) : Platform where
  Response := Unit
  httpGet := fun _ => Except.ok ()
  readAll := fun _ => (body, none)
  unmarshalError := sampleUnmarshalError
  unmarshalSymbols := sampleUnmarshal
  unmarshalLatest := sampleUnmarshal
  unmarshalHistorical := sampleUnmarshal
  unmarshalConversion := sampleUnmarshal
  unmarshalTimeseries := sampleUnmarshal
  unmarshalFluctuation := sampleUnmarshal

/-- A transport that refuses every request with an error whose text is the
URL it was asked for, with the sample codecs. -/
def echoPlatform : Platform where
  Response := Unit
  httpGet := fun url => Except.error ⟨url⟩
  readAll := fun _ => ("", none)
  unmarshalError := sampleUnmarshalError
  unmarshalSymbols := sampleUnmarshal
  unmarshalLatest := sampleUnmarshal
  unmarshalHistorical := sampleUnmarshal
  unmarshalConversion := sampleUnmarshal
  unmarshalTimeseries := sampleUnmarshal
  unmarshalFluctuation := sampleUnmarshal

/-- A float formatter defined at `100`, whose bits are `0x4059000000000000`. -/
def sampleFormatFloat (x : Float64) : String :=
  if x.bits = 0x4059000000000000 then "100" else "0"

/-- Exactly one of result record and error is present. -/
def ExactlyOne {R : Type} (out : Option R × Option GoError) : Prop :=
  (out.1 = none ∧ out.2 ≠ none) ∨ (out.1 ≠ none ∧ out.2 = none)

/-- How the outcome `out` of a query method depends on the envelope `e` its
body decoded to and on the outcome `dec` of decoding the same body into the
result record: a record is returned only if `e` has `success` true or code
zero; an envelope with `success` false and a non-zero code gives an error and
no record; in the other cases the record is returned exactly when the second
decoding succeeds, and its error is returned wrapped otherwise. -/
def GatedBy {R : Type} (out : Option R × Option GoError) (e : ResponseError)
    (dec : Option GoError × R) : Prop :=
  (out.1 ≠ none → e.Success = true ∨ e.Error.Code = 0)
  ∧ (e.Success = false → e.Error.Code ≠ 0 → out.1 = none ∧ out.2 ≠ none)
  ∧ (e.Success = true ∨ e.Error.Code = 0 → dec.1 = none → out = (some dec.2, none))
  ∧ (e.Success = true ∨ e.Error.Code = 0 → dec.1 ≠ none →
      out.1 = none ∧ out.2 ≠ none ∧ out.2 = wrapError dec.1)

/-- Every query method, at every argument, returns no record and an error
with the text `text`. -/
def AllQueriesFail (p : Platform) (formatFloat : Float64 → String) (rt : MapRange)
    (f : FixerIO) (text : String) : Prop :=
  GetSymbols p rt f = (none, some ⟨text⟩)
  ∧ (∀ symbols : List String, GetLatest p rt f symbols = (none, some ⟨text⟩))
  ∧ (∀ (date : String) (symbols : List String),
      GetHistorical p rt f date symbols = (none, some ⟨text⟩))
  ∧ (∀ (src dst : String) (amount : Float64) (date : String),
      GetConversion p formatFloat rt f src dst amount date = (none, some ⟨text⟩))
  ∧ (∀ startDate endDate : String,
      GetTimeseries p rt f startDate endDate = (none, some ⟨text⟩))
  ∧ (∀ startDate endDate : String,
      GetFluctuation p rt f startDate endDate = (none, some ⟨text⟩))

/-! ## Lemmas on strings and on the URL loop -/

theorem contains_middle (a b c : String) : Contains (a ++ b ++ c) b := by
  unfold Contains
  simp only [String.data_append]
  exact List.infix_append a.data b.data c.data

theorem contains_tail (a b : String) : Contains (a ++ b) b := by
  have h := contains_middle a b ""
  simpa using h

theorem contains_trans {a b c : String} (h₁ : Contains b c) (h₂ : Contains a b) :
    Contains a c :=
  List.IsInfix.trans h₁ h₂

theorem segments_contains (l : GoMap) (e : String × String) (he : e ∈ l) :
    Contains (segments l) ("&" ++ e.1 ++ "=" ++ e.2) := by
  induction l with
  | nil => simp at he
  | cons x rest ih =>
    rcases List.mem_cons.mp he with h | h
    · subst h
      have h := contains_middle "" ("&" ++ e.1 ++ "=" ++ e.2) (segments rest)
      simpa [segments] using h
    · have h₁ := ih h
      have h₂ := contains_tail ("&" ++ x.1 ++ "=" ++ x.2) (segments rest)
      exact contains_trans h₁ h₂

theorem foldl_step_eq (l : GoMap) (acc : String) :
    l.foldl getURL.step acc = acc ++ segments (l.filter fun e => e.2 ≠ "") := by
  induction l generalizing acc with
  | nil => simp [segments]
  | cons e rest ih =>
    rw [List.foldl_cons, ih]
    by_cases h : e.2 = ""
    · simp [getURL.step, h]
    · simp [getURL.step, h, segments, String.append_assoc]

theorem getURL_eq (rt : MapRange) (f : FixerIO) (method : String) (params : GoMap) :
    getURL rt f method params
      = urlHead f method ++ segments ((rt.order params).filter fun e => e.2 ≠ "") := by
  unfold getURL urlHead BaseURL
  simp only [foldl_step_eq]
  cases f.Secure <;> simp [String.append_assoc] <;> rfl

theorem perm_two {α : Type} {l : List α} {a b : α} (h : List.Perm l [a, b]) :
    l = [a, b] ∨ l = [b, a] := by
  have hlen : l.length = 2 := by simpa using h.length_eq
  match l, hlen with
  | [x, y], _ =>
    have hx : x = a ∨ x = b := by simpa using h.mem_iff.mp (List.mem_cons_self x [y])
    have hy : y = a ∨ y = b := by
      simpa using h.mem_iff.mp (List.mem_cons_of_mem x (List.mem_singleton_self y))
    have ha : a = x ∨ a = y := by simpa using h.mem_iff.mpr (List.mem_cons_self a [b])
    have hb : b = x ∨ b = y := by
      simpa using h.mem_iff.mpr (List.mem_cons_of_mem a (List.mem_singleton_self b))
    rcases hx with rfl | rfl <;> rcases hy with rfl | rfl
    · rcases hb with rfl | rfl <;> simp
    · simp
    · simp
    · rcases ha with rfl | rfl <;> simp

theorem Join_ne_empty (symbols : List String) (hne : symbols ≠ [])
    (hall : ∀ c ∈ symbols, c ≠ "") : Join symbols "," ≠ "" := by
  match symbols, hne with
  | [a], _ =>
    simpa [Join] using hall a (List.mem_singleton_self a)
  | a :: b :: rest, _ =>
    have ha : a ≠ "" := hall a (List.mem_cons_self a _)
    intro h
    apply ha
    have hd := congrArg String.data h
    simp only [Join, String.data_append] at hd
    apply String.ext
    have := List.append_eq_nil.mp hd
    have := List.append_eq_nil.mp this.1
    simpa using this.1

theorem ToUpper_ascii (up : Char → Char) (s : String)
    (h : s.data.all (fun c => c.toNat < 128) = true) :
    ToUpper up s = String.mk (s.data.map fun c =>
      if 97 ≤ c.toNat ∧ c.toNat ≤ 122 then Char.ofNat (c.toNat - 32) else c) := by
  unfold ToUpper
  rw [if_pos h]

theorem GetSymbols_eq (p : Platform) (rt : MapRange) (f : FixerIO) :
    GetSymbols p rt f
      = finish (makeRequest p p.unmarshalSymbols (GetSymbols.url rt f) ResponseSymbols.zero) := by
  unfold GetSymbols finish
  dsimp only
  generalize makeRequest _ _ _ _ = out
  rcases out with ⟨_ | err, r⟩ <;> rfl

theorem GetLatest_eq (p : Platform) (rt : MapRange) (f : FixerIO) (symbols : List String) :
    GetLatest p rt f symbols
      = finish (makeRequest p p.unmarshalLatest (GetLatest.url rt f symbols)
          ResponseLatest.zero) := by
  unfold GetLatest finish
  dsimp only
  generalize makeRequest _ _ _ _ = out
  rcases out with ⟨_ | err, r⟩ <;> rfl

theorem GetHistorical_eq (p : Platform) (rt : MapRange) (f : FixerIO) (date : String)
    (symbols : List String) :
    GetHistorical p rt f date symbols
      = finish (makeRequest p p.unmarshalHistorical (GetHistorical.url rt f date symbols)
          ResponseHistorical.zero) := by
  unfold GetHistorical finish
  dsimp only
  generalize makeRequest _ _ _ _ = out
  rcases out with ⟨_ | err, r⟩ <;> rfl

theorem GetConversion_eq (p : Platform) (formatFloat : Float64 → String) (rt : MapRange)
    (f : FixerIO) (src dst : String) (amount : Float64) (date : String) :
    GetConversion p formatFloat rt f src dst amount date
      = finish (makeRequest p p.unmarshalConversion
          (GetConversion.url formatFloat rt f src dst amount date) ResponseConversion.zero) := by
  unfold GetConversion finish
  dsimp only
  generalize makeRequest _ _ _ _ = out
  rcases out with ⟨_ | err, r⟩ <;> rfl

theorem GetTimeseries_eq (p : Platform) (rt : MapRange) (f : FixerIO)
    (startDate endDate : String) :
    GetTimeseries p rt f startDate endDate
      = finish (makeRequest p p.unmarshalTimeseries (GetTimeseries.url rt f startDate endDate)
          ResponseTimeseries.zero) := by
  unfold GetTimeseries finish
  dsimp only
  generalize makeRequest _ _ _ _ = out
  rcases out with ⟨_ | err, r⟩ <;> rfl

theorem GetFluctuation_eq (p : Platform) (rt : MapRange) (f : FixerIO)
    (startDate endDate : String) :
    GetFluctuation p rt f startDate endDate
      = finish (makeRequest p p.unmarshalFluctuation (GetFluctuation.url rt f startDate endDate)
          ResponseFluctuation.zero) := by
  unfold GetFluctuation finish
  dsimp only
  generalize makeRequest _ _ _ _ = out
  rcases out with ⟨_ | err, r⟩ <;> rfl

theorem getURL_single (rt : MapRange) (f : FixerIO) (method name value : String) :
    getURL rt f method [(name, value)]
      = urlHead f method ++ segments (List.filter (fun e => e.2 ≠ "") [(name, value)]) := by
  rw [getURL_eq, List.perm_singleton.mp (rt.perm [(name, value)])]

/-! ## Client construction -/

/-- C1: for every key, base and secure flag, `New` fails exactly when the key
is empty; with an empty key it returns no client and the error text
`gofixerio error: APIKey is required`, with a non-empty key it returns a
client (carrying the key and the flag) and no error. -/
theorem New_fails_iff_empty_key (up : Char → Char) (APIKey Base : String) (Secure : Bool) :
    ((New up APIKey Base Secure).2 ≠ none ↔ APIKey = "")
    ∧ (APIKey = "" →
        New up APIKey Base Secure = (none, some ⟨"gofixerio error: APIKey is required"⟩))
    ∧ (APIKey ≠ "" →
        ∃ c : FixerIO, New up APIKey Base Secure = (some c, none)
          ∧ c.APIKey = APIKey ∧ c.Secure = Secure) := by
  by_cases h : APIKey = ""
  · subst h
    refine ⟨?_, ?_, ?_⟩
    · simp [New, wrapError, errorsWrap, errorsNew]
    · intro _
      simp [New, wrapError, errorsWrap, errorsNew]
    · intro hne
      exact absurd rfl hne
  · refine ⟨?_, ?_, ?_⟩
    · simp [New, h]
    · intro he
      exact absurd he h
    · intro _
      exact ⟨⟨APIKey, ToUpper up Base, Secure⟩, by simp [New, h], rfl, rfl⟩

/-- Witness of C1 at the keys of the package test. -/
theorem New_fails_iff_empty_key_witness :
    New id "" "" false = (none, some ⟨"gofixerio error: APIKey is required"⟩)
    ∧ ∃ c : FixerIO, New id "186f2ecd6621d35c3319bb53e1787d90" "" false = (some c, none)
        ∧ c.APIKey = "186f2ecd6621d35c3319bb53e1787d90" ∧ c.Secure = false :=
  ⟨(New_fails_iff_empty_key id "" "" false).2.1 rfl,
   (New_fails_iff_empty_key id "186f2ecd6621d35c3319bb53e1787d90" "" false).2.2 (by decide)⟩

/-- C2: after `SetBase s` the stored base is the uppercased form of `s`,
whatever was stored before and whatever the case of `s` (`usd`, `UsD` and `USD`
are all stored as `USD`), the key and the flag are untouched; a client built by `New` with a non-empty key stores the uppercased
form of the base it was given (`eur` is stored as `EUR`). -/
theorem SetBase_stores_upper (up : Char → Char) (f : FixerIO) (s : String) :
    (SetBase up f s).Base = ToUpper up s
    ∧ (SetBase up f s).APIKey = f.APIKey
    ∧ (SetBase up f s).Secure = f.Secure
    ∧ (SetBase up f "usd").Base = "USD"
    ∧ (SetBase up f "UsD").Base = "USD"
    ∧ (SetBase up f "USD").Base = "USD"
    ∧ (∀ (key : String) (secure : Bool), key ≠ "" →
        (New up key s secure).1 = some ⟨key, ToUpper up s, secure⟩
        ∧ (New up key "eur" secure).1 = some ⟨key, "EUR", secure⟩) := by
  refine ⟨rfl, rfl, rfl, ?_, ?_, ?_, ?_⟩
  · show ToUpper up "usd" = "USD"
    rw [ToUpper_ascii up "usd" (by decide)]
    decide
  · show ToUpper up "UsD" = "USD"
    rw [ToUpper_ascii up "UsD" (by decide)]
    decide
  · show ToUpper up "USD" = "USD"
    rw [ToUpper_ascii up "USD" (by decide)]
    decide
  · intro key secure hkey
    have heur : ToUpper up "eur" = "EUR" := by
      rw [ToUpper_ascii up "eur" (by decide)]
      decide
    constructor
    · simp [New, hkey]
    · simp [New, hkey, heur]

/-- Witness of C2 at the values of the package test. -/
theorem SetBase_stores_upper_witness :
    (New id "key" "eur" false).1 = some ⟨"key", "EUR", false⟩ :=
  ((SetBase_stores_upper id sampleClient "eur").2.2.2.2.2.2 "key" false (by decide)).2

/-! ## URL construction -/

/-- C3: for every client, method segment and parameter mapping (in whatever
order the loop visits it), the URL is the head ending in `&base=<base>`
followed by `&name=value` for a list `appended` of entries that is a
rearrangement of the entries of the mapping with a non-empty value: an entry
with an empty value contributes nothing, an entry with a non-empty value is
appended once and the URL contains its `&name=value` verbatim. -/
theorem getURL_appends_nonempty (rt : MapRange) (f : FixerIO) (method : String)
    (params : GoMap) (hwf : params.WellFormed) :
    ∃ appended : GoMap,
      getURL rt f method params
        = (if f.Secure then "https://" else "http://") ++ "data.fixer.io/api/" ++ method
            ++ "?access_key=" ++ f.APIKey ++ "&base=" ++ f.Base ++ segments appended
      ∧ List.Perm appended (params.filter fun e => e.2 ≠ "")
      ∧ (appended.map Prod.fst).Nodup
      ∧ (∀ e ∈ params, e.2 = "" → e ∉ appended)
      ∧ (∀ e ∈ params, e.2 ≠ "" →
          e ∈ appended
          ∧ Contains (getURL rt f method params) ("&" ++ e.1 ++ "=" ++ e.2)) := by
  have hperm : List.Perm ((rt.order params).filter fun e => e.2 ≠ "")
      (params.filter fun e => e.2 ≠ "") := (rt.perm params).filter _
  have hkeys : (((rt.order params).filter fun e => e.2 ≠ "").map Prod.fst).Nodup := by
    have h₁ : ((params.filter fun e => e.2 ≠ "").map Prod.fst).Nodup :=
      List.Nodup.sublist ((List.filter_sublist params).map Prod.fst) hwf
    exact ((hperm.map Prod.fst).nodup_iff).mpr h₁
  refine ⟨(rt.order params).filter fun e => e.2 ≠ "", ?_, hperm, hkeys, ?_, ?_⟩
  · rw [getURL_eq]
    rfl
  · intro e _ hempty hmem
    have := (List.mem_filter.mp hmem).2
    simp [hempty] at this
  · intro e he hne
    have hmem : e ∈ (rt.order params).filter fun e => e.2 ≠ "" := by
      apply hperm.mem_iff.mpr
      exact List.mem_filter.mpr ⟨he, by simpa using hne⟩
    refine ⟨hmem, ?_⟩
    rw [getURL_eq]
    exact contains_trans (segments_contains _ e hmem) (contains_tail _ _)

/-- Witness of C3: the parameters of a conversion with no date, visited in
reverse order. -/
theorem getURL_appends_nonempty_witness :
    ∃ appended : GoMap,
      getURL reversedOrder sampleClient "convert"
          [("from", "USD"), ("to", "EUR"), ("amount", "100"), ("date", "")]
        = (if sampleClient.Secure then "https://" else "http://") ++ "data.fixer.io/api/"
            ++ "convert" ++ "?access_key=" ++ sampleClient.APIKey ++ "&base="
            ++ sampleClient.Base ++ segments appended
      ∧ List.Perm appended
          (List.filter (fun e => e.2 ≠ "")
            [("from", "USD"), ("to", "EUR"), ("amount", "100"), ("date", "")])
      ∧ (appended.map Prod.fst).Nodup
      ∧ (∀ e ∈ [("from", "USD"), ("to", "EUR"), ("amount", "100"), ("date", "")],
          e.2 = "" → e ∉ appended)
      ∧ (∀ e ∈ [("from", "USD"), ("to", "EUR"), ("amount", "100"), ("date", "")],
          e.2 ≠ "" →
          e ∈ appended
          ∧ Contains (getURL reversedOrder sampleClient "convert"
              [("from", "USD"), ("to", "EUR"), ("amount", "100"), ("date", "")])
              ("&" ++ e.1 ++ "=" ++ e.2)) :=
  getURL_appends_nonempty reversedOrder sampleClient "convert"
    [("from", "USD"), ("to", "EUR"), ("amount", "100"), ("date", "")] (by decide)

/-- C9: for every client, method segment and parameter mapping, the URL begins
with scheme, `data.fixer.io/api/`, the method segment, `?access_key=` and the
key, `&base=` and the stored base (also when the base is empty), the scheme
being `https://` for a secure client and `http://` otherwise; what follows is
only the text of the non-empty parameters, so the URL is exactly this head when
every value is empty; the method segment of `GetHistorical` is its date: on
every platform `GetHistorical` performs its request at the URL with the date
after `/api/`, followed by `&symbols=` and the joined symbols when that text is
non-empty and by nothing otherwise. -/
theorem getURL_head (rt : MapRange) (f : FixerIO) (method : String) (params : GoMap) :
    (∃ rest : String,
      getURL rt f method params
        = (if f.Secure then "https://" else "http://") ++ "data.fixer.io/api/" ++ method
            ++ "?access_key=" ++ f.APIKey ++ "&base=" ++ f.Base ++ rest)
    ∧ ((∀ e ∈ params, e.2 = "") →
        getURL rt f method params
          = (if f.Secure then "https://" else "http://") ++ "data.fixer.io/api/" ++ method
              ++ "?access_key=" ++ f.APIKey ++ "&base=" ++ f.Base)
    ∧ (f.Base = "" →
        ∃ rest : String,
          getURL rt f method params
            = (if f.Secure then "https://" else "http://") ++ "data.fixer.io/api/" ++ method
                ++ "?access_key=" ++ f.APIKey ++ "&base=" ++ rest
          ∧ (rest = "" ∨ ∃ more : String, rest = "&" ++ more))
    ∧ (∀ (date : String) (symbols : List String), ∃ rest : String,
        GetHistorical.url rt f date symbols
          = (if f.Secure then "https://" else "http://") ++ "data.fixer.io/api/" ++ date
              ++ "?access_key=" ++ f.APIKey ++ "&base=" ++ f.Base ++ rest)
    ∧ (∀ (p : Platform) (date : String) (symbols : List String), Join symbols "," = "" →
        GetHistorical p rt f date symbols
          = finish (makeRequest p p.unmarshalHistorical
              ((if f.Secure then "https://" else "http://") ++ "data.fixer.io/api/" ++ date
                ++ "?access_key=" ++ f.APIKey ++ "&base=" ++ f.Base)
              ResponseHistorical.zero))
    ∧ (∀ (p : Platform) (date : String) (symbols : List String), Join symbols "," ≠ "" →
        GetHistorical p rt f date symbols
          = finish (makeRequest p p.unmarshalHistorical
              ((if f.Secure then "https://" else "http://") ++ "data.fixer.io/api/" ++ date
                ++ "?access_key=" ++ f.APIKey ++ "&base=" ++ f.Base
                ++ "&symbols=" ++ Join symbols ",")
              ResponseHistorical.zero)) := by
  refine ⟨⟨_, getURL_eq rt f method params⟩, ?_, ?_, ?_, ?_, ?_⟩
  · intro hall
    rw [getURL_eq]
    have hnil : ((rt.order params).filter fun e => e.2 ≠ "") = [] := by
      apply List.filter_eq_nil_iff.mpr
      intro e he
      have := hall e ((rt.perm params).mem_iff.mp he)
      simp [this]
    rw [hnil]
    simp [segments, urlHead]
  · intro hbase
    refine ⟨segments ((rt.order params).filter fun e => e.2 ≠ ""), ?_, ?_⟩
    · rw [getURL_eq]
      simp [urlHead, hbase]
    · cases (rt.order params).filter fun e => e.2 ≠ "" with
      | nil => exact Or.inl rfl
      | cons e l =>
        exact Or.inr ⟨e.1 ++ "=" ++ e.2 ++ segments l, by simp [segments, String.append_assoc]⟩
  · intro date symbols
    exact ⟨_, getURL_eq rt f date _⟩
  · intro p date symbols hj
    have hurl : GetHistorical.url rt f date symbols
        = (if f.Secure then "https://" else "http://") ++ "data.fixer.io/api/" ++ date
            ++ "?access_key=" ++ f.APIKey ++ "&base=" ++ f.Base := by
      unfold GetHistorical.url
      rw [getURL_single]
      simp [hj, segments, urlHead]
    unfold GetHistorical finish
    dsimp only
    rw [hurl]
    generalize makeRequest _ _ _ _ = out
    rcases out with ⟨_ | err, r⟩ <;> rfl
  · intro p date symbols hj
    have hurl : GetHistorical.url rt f date symbols
        = (if f.Secure then "https://" else "http://") ++ "data.fixer.io/api/" ++ date
            ++ "?access_key=" ++ f.APIKey ++ "&base=" ++ f.Base
            ++ "&symbols=" ++ Join symbols "," := by
      unfold GetHistorical.url
      rw [getURL_single]
      simp [hj, segments, urlHead, String.append_assoc]
    unfold GetHistorical finish
    dsimp only
    rw [hurl]
    generalize makeRequest _ _ _ _ = out
    rcases out with ⟨_ | err, r⟩ <;> rfl

/-- Witness of C9: a secure client with a mapping whose only value is empty,
and the historical rates of a date requested from the echoing transport, with
and without symbols. -/
theorem getURL_head_witness :
    getURL writtenOrder ⟨"abc", "USD", true⟩ "latest" [("symbols", "")]
      = "https://data.fixer.io/api/latest?access_key=abc&base=USD"
    ∧ GetHistorical echoPlatform reversedOrder ⟨"abc", "USD", true⟩ "2024-01-01" []
      = (none, some
          ⟨"gofixerio error: https://data.fixer.io/api/2024-01-01?access_key=abc&base=USD"⟩)
    ∧ GetHistorical echoPlatform reversedOrder ⟨"abc", "USD", true⟩ "2024-01-01" ["USD", "EUR"]
      = (none, some
          ⟨"gofixerio error: https://data.fixer.io/api/2024-01-01?access_key=abc&base=USD&symbols=USD,EUR"⟩) :=
  ⟨(getURL_head writtenOrder ⟨"abc", "USD", true⟩ "latest" [("symbols", "")]).2.1
      (by decide),
   ((getURL_head reversedOrder ⟨"abc", "USD", true⟩ "latest" []).2.2.2.2.1
      echoPlatform "2024-01-01" [] (by decide)).trans (by decide),
   ((getURL_head reversedOrder ⟨"abc", "USD", true⟩ "latest" []).2.2.2.2.2
      echoPlatform "2024-01-01" ["USD", "EUR"] (by decide)).trans (by decide)⟩

/-- C8: for every client, the URL of `GetLatest` for an empty symbol sequence
has no `symbols` parameter and is exactly the URL up to `&base=<base>`; for a
non-empty sequence of non-empty codes it is that URL followed by `&symbols=`
and the codes joined by commas in the given order, so `USD`, `EUR` gives
`...&symbols=USD,EUR`; and on every platform `GetLatest` performs its request
at that URL. -/
theorem GetLatest_url_symbols (rt : MapRange) (f : FixerIO) (symbols : List String) :
    GetLatest.url rt f []
      = (if f.Secure then "https://" else "http://") ++ "data.fixer.io/api/" ++ "latest"
          ++ "?access_key=" ++ f.APIKey ++ "&base=" ++ f.Base
    ∧ (symbols ≠ [] → (∀ c ∈ symbols, c ≠ "") →
        GetLatest.url rt f symbols
          = (if f.Secure then "https://" else "http://") ++ "data.fixer.io/api/" ++ "latest"
              ++ "?access_key=" ++ f.APIKey ++ "&base=" ++ f.Base
              ++ "&symbols=" ++ Join symbols ",")
    ∧ GetLatest.url rt f ["USD", "EUR"]
        = (if f.Secure then "https://" else "http://") ++ "data.fixer.io/api/" ++ "latest"
            ++ "?access_key=" ++ f.APIKey ++ "&base=" ++ f.Base ++ "&symbols=USD,EUR"
    ∧ (∀ p : Platform,
        GetLatest p rt f []
          = finish (makeRequest p p.unmarshalLatest
              ((if f.Secure then "https://" else "http://") ++ "data.fixer.io/api/" ++ "latest"
                ++ "?access_key=" ++ f.APIKey ++ "&base=" ++ f.Base)
              ResponseLatest.zero))
    ∧ (symbols ≠ [] → (∀ c ∈ symbols, c ≠ "") → ∀ p : Platform,
        GetLatest p rt f symbols
          = finish (makeRequest p p.unmarshalLatest
              ((if f.Secure then "https://" else "http://") ++ "data.fixer.io/api/" ++ "latest"
                ++ "?access_key=" ++ f.APIKey ++ "&base=" ++ f.Base
                ++ "&symbols=" ++ Join symbols ",")
              ResponseLatest.zero))
    ∧ (∀ p : Platform,
        GetLatest p rt f ["USD", "EUR"]
          = finish (makeRequest p p.unmarshalLatest
              ((if f.Secure then "https://" else "http://") ++ "data.fixer.io/api/" ++ "latest"
                ++ "?access_key=" ++ f.APIKey ++ "&base=" ++ f.Base ++ "&symbols=USD,EUR")
              ResponseLatest.zero)) := by
  have hgen : ∀ l : List String, Join l "," ≠ "" →
      GetLatest.url rt f l = urlHead f "latest" ++ "&symbols=" ++ Join l "," := by
    intro l hl
    unfold GetLatest.url
    rw [getURL_single]
    simp [hl, segments, String.append_assoc]
  have hnil : GetLatest.url rt f []
      = (if f.Secure then "https://" else "http://") ++ "data.fixer.io/api/" ++ "latest"
          ++ "?access_key=" ++ f.APIKey ++ "&base=" ++ f.Base := by
    unfold GetLatest.url
    rw [getURL_single]
    simp [Join, segments, urlHead]
  have hsome : symbols ≠ [] → (∀ c ∈ symbols, c ≠ "") →
      GetLatest.url rt f symbols
        = (if f.Secure then "https://" else "http://") ++ "data.fixer.io/api/" ++ "latest"
            ++ "?access_key=" ++ f.APIKey ++ "&base=" ++ f.Base
            ++ "&symbols=" ++ Join symbols "," := by
    intro hne hall
    exact hgen symbols (Join_ne_empty symbols hne hall)
  have hpair : GetLatest.url rt f ["USD", "EUR"]
      = (if f.Secure then "https://" else "http://") ++ "data.fixer.io/api/" ++ "latest"
          ++ "?access_key=" ++ f.APIKey ++ "&base=" ++ f.Base ++ "&symbols=USD,EUR" := by
    have h := hgen ["USD", "EUR"] (by decide)
    rw [h]
    have hj : Join ["USD", "EUR"] "," = "USD,EUR" := by decide
    rw [hj]
    simp [urlHead, String.append_assoc]
  refine ⟨hnil, hsome, hpair, ?_, ?_, ?_⟩
  · intro p
    unfold GetLatest finish
    dsimp only
    rw [hnil]
    generalize makeRequest _ _ _ _ = out
    rcases out with ⟨_ | err, r⟩ <;> rfl
  · intro hne hall p
    unfold GetLatest finish
    dsimp only
    rw [hsome hne hall]
    generalize makeRequest _ _ _ _ = out
    rcases out with ⟨_ | err, r⟩ <;> rfl
  · intro p
    unfold GetLatest finish
    dsimp only
    rw [hpair]
    generalize makeRequest _ _ _ _ = out
    rcases out with ⟨_ | err, r⟩ <;> rfl

/-- Witness of C8 at the ten reference symbols of the package test, for the
URL and for the request of `GetLatest` at the echoing transport. -/
theorem GetLatest_url_symbols_witness :
    GetLatest echoPlatform writtenOrder sampleClient
        ["USD", "EUR", "JPY", "GBP", "AUD", "CAD", "CHF", "CNY", "NZD", "RUB"]
      = (none, some
          ⟨"gofixerio error: http://data.fixer.io/api/latest?access_key=k&base=EUR&symbols=USD,EUR,JPY,GBP,AUD,CAD,CHF,CNY,NZD,RUB"⟩)
    ∧ GetLatest.url writtenOrder sampleClient
        ["USD", "EUR", "JPY", "GBP", "AUD", "CAD", "CHF", "CNY", "NZD", "RUB"]
      = (if sampleClient.Secure then "https://" else "http://") ++ "data.fixer.io/api/"
          ++ "latest" ++ "?access_key=" ++ sampleClient.APIKey ++ "&base=" ++ sampleClient.Base
          ++ "&symbols="
          ++ Join ["USD", "EUR", "JPY", "GBP", "AUD", "CAD", "CHF", "CNY", "NZD", "RUB"] "," :=
  ⟨((GetLatest_url_symbols writtenOrder sampleClient
      ["USD", "EUR", "JPY", "GBP", "AUD", "CAD", "CHF", "CNY", "NZD", "RUB"]).2.2.2.2.1
      (by decide) (by decide) echoPlatform).trans (by decide),
   (GetLatest_url_symbols writtenOrder sampleClient
      ["USD", "EUR", "JPY", "GBP", "AUD", "CAD", "CHF", "CNY", "NZD", "RUB"]).2.1
      (by decide) (by decide)⟩

set_option maxRecDepth 100000 in
/-- C7, refuted as stated: when the loop of `getURL` visits `end_data` before
`start_date`, the URL of `GetTimeseries` for `2024-01-01`, `2024-01-02` is
`...&end_data=2024-01-02&start_date=2024-01-01` and does not contain
`start_date=2024-01-01&end_data=2024-01-02`; this is the URL the echoing
transport is asked for by `GetTimeseries`. -/
theorem GetTimeseries_url_order_counterexample :
    GetTimeseries.url reversedOrder sampleClient "2024-01-01" "2024-01-02"
      = "http://data.fixer.io/api/timeseries?access_key=k&base=EUR&end_data=2024-01-02&start_date=2024-01-01"
    ∧ ¬ Contains (GetTimeseries.url reversedOrder sampleClient "2024-01-01" "2024-01-02")
        "start_date=2024-01-01&end_data=2024-01-02"
    ∧ GetTimeseries echoPlatform reversedOrder sampleClient "2024-01-01" "2024-01-02"
      = (none, some
          ⟨"gofixerio error: http://data.fixer.io/api/timeseries?access_key=k&base=EUR&end_data=2024-01-02&start_date=2024-01-01"⟩) := by
  decide

theorem url_two_dates (rt : MapRange) (f : FixerIO) (method startDate endDate : String)
    (hs : startDate ≠ "") (he : endDate ≠ "") :
    (getURL rt f method [("start_date", startDate), ("end_data", endDate)]
        = urlHead f method ++ "&start_date=" ++ startDate ++ "&end_data=" ++ endDate
      ∧ rt.order [("start_date", startDate), ("end_data", endDate)]
          = [("start_date", startDate), ("end_data", endDate)])
    ∨ (getURL rt f method [("start_date", startDate), ("end_data", endDate)]
        = urlHead f method ++ "&end_data=" ++ endDate ++ "&start_date=" ++ startDate
      ∧ rt.order [("start_date", startDate), ("end_data", endDate)]
          = [("end_data", endDate), ("start_date", startDate)]) := by
  rcases perm_two (rt.perm [("start_date", startDate), ("end_data", endDate)]) with h | h
  · left
    refine ⟨?_, h⟩
    rw [getURL_eq, h]
    simp [hs, he, segments, String.append_assoc]
  · right
    refine ⟨?_, h⟩
    rw [getURL_eq, h]
    simp [hs, he, segments, String.append_assoc]

theorem url_two_dates_contains (rt : MapRange) (f : FixerIO) (method startDate endDate : String)
    (hs : startDate ≠ "") (he : endDate ≠ "") :
    Contains (getURL rt f method [("start_date", startDate), ("end_data", endDate)])
        ("&start_date=" ++ startDate)
    ∧ Contains (getURL rt f method [("start_date", startDate), ("end_data", endDate)])
        ("&end_data=" ++ endDate)
    ∧ (rt.order [("start_date", startDate), ("end_data", endDate)]
          = [("start_date", startDate), ("end_data", endDate)] →
        Contains (getURL rt f method [("start_date", startDate), ("end_data", endDate)])
          ("start_date=" ++ startDate ++ "&end_data=" ++ endDate)) := by
  rcases url_two_dates rt f method startDate endDate hs he with ⟨h, -⟩ | ⟨h, ho⟩
  · rw [h]
    refine ⟨?_, ?_, ?_⟩
    · have := contains_middle (urlHead f method) ("&start_date=" ++ startDate)
        ("&end_data=" ++ endDate)
      simpa [String.append_assoc] using this
    · have := contains_tail (urlHead f method ++ "&start_date=" ++ startDate)
        ("&end_data=" ++ endDate)
      simpa [String.append_assoc] using this
    · intro _
      have := contains_tail (urlHead f method ++ "&")
        ("start_date=" ++ startDate ++ "&end_data=" ++ endDate)
      have hsplit : "&start_date=" = "&" ++ "start_date=" := by decide
      rw [hsplit]
      simpa [String.append_assoc] using this
  · rw [h]
    refine ⟨?_, ?_, ?_⟩
    · have := contains_tail (urlHead f method ++ "&end_data=" ++ endDate)
        ("&start_date=" ++ startDate)
      simpa [String.append_assoc] using this
    · have := contains_middle (urlHead f method) ("&end_data=" ++ endDate)
        ("&start_date=" ++ startDate)
      simpa [String.append_assoc] using this
    · intro ho'
      rw [ho] at ho'
      have h₁ := congrArg (fun l => (l.map Prod.fst).head?) ho'
      simp at h₁

/-- C7, amended: for every client and all non-empty dates, the URL of
`GetTimeseries` and of `GetFluctuation` is the head ending in `&base=<base>`
followed by `&start_date=<startDate>` and `&end_data=<endDate>` in one of the
two orders; it contains both parameter texts, and it contains
`start_date=<startDate>&end_data=<endDate>` when the loop of `getURL` visits
`start_date` first; on every platform each method performs its request at that
URL. -/
theorem GetTimeseries_url_dates (rt : MapRange) (f : FixerIO) (startDate endDate : String)
    (hs : startDate ≠ "") (he : endDate ≠ "") :
    (GetTimeseries.url rt f startDate endDate
        = urlHead f "timeseries" ++ "&start_date=" ++ startDate ++ "&end_data=" ++ endDate
      ∨ GetTimeseries.url rt f startDate endDate
        = urlHead f "timeseries" ++ "&end_data=" ++ endDate ++ "&start_date=" ++ startDate)
    ∧ Contains (GetTimeseries.url rt f startDate endDate) ("&start_date=" ++ startDate)
    ∧ Contains (GetTimeseries.url rt f startDate endDate) ("&end_data=" ++ endDate)
    ∧ (rt.order [("start_date", startDate), ("end_data", endDate)]
          = [("start_date", startDate), ("end_data", endDate)] →
        Contains (GetTimeseries.url rt f startDate endDate)
          ("start_date=" ++ startDate ++ "&end_data=" ++ endDate))
    ∧ (GetFluctuation.url rt f startDate endDate
        = urlHead f "fluctuation" ++ "&start_date=" ++ startDate ++ "&end_data=" ++ endDate
      ∨ GetFluctuation.url rt f startDate endDate
        = urlHead f "fluctuation" ++ "&end_data=" ++ endDate ++ "&start_date=" ++ startDate)
    ∧ Contains (GetFluctuation.url rt f startDate endDate) ("&start_date=" ++ startDate)
    ∧ Contains (GetFluctuation.url rt f startDate endDate) ("&end_data=" ++ endDate)
    ∧ (rt.order [("start_date", startDate), ("end_data", endDate)]
          = [("start_date", startDate), ("end_data", endDate)] →
        Contains (GetFluctuation.url rt f startDate endDate)
          ("start_date=" ++ startDate ++ "&end_data=" ++ endDate))
    ∧ ((∀ p : Platform,
          GetTimeseries p rt f startDate endDate
            = finish (makeRequest p p.unmarshalTimeseries
                (urlHead f "timeseries" ++ "&start_date=" ++ startDate
                  ++ "&end_data=" ++ endDate)
                ResponseTimeseries.zero))
      ∨ (∀ p : Platform,
          GetTimeseries p rt f startDate endDate
            = finish (makeRequest p p.unmarshalTimeseries
                (urlHead f "timeseries" ++ "&end_data=" ++ endDate
                  ++ "&start_date=" ++ startDate)
                ResponseTimeseries.zero)))
    ∧ ((∀ p : Platform,
          GetFluctuation p rt f startDate endDate
            = finish (makeRequest p p.unmarshalFluctuation
                (urlHead f "fluctuation" ++ "&start_date=" ++ startDate
                  ++ "&end_data=" ++ endDate)
                ResponseFluctuation.zero))
      ∨ (∀ p : Platform,
          GetFluctuation p rt f startDate endDate
            = finish (makeRequest p p.unmarshalFluctuation
                (urlHead f "fluctuation" ++ "&end_data=" ++ endDate
                  ++ "&start_date=" ++ startDate)
                ResponseFluctuation.zero)))
    ∧ (rt.order [("start_date", startDate), ("end_data", endDate)]
          = [("start_date", startDate), ("end_data", endDate)] →
        ∀ p : Platform,
          GetTimeseries p rt f startDate endDate
            = finish (makeRequest p p.unmarshalTimeseries
                (urlHead f "timeseries" ++ "&start_date=" ++ startDate
                  ++ "&end_data=" ++ endDate)
                ResponseTimeseries.zero)
          ∧ GetFluctuation p rt f startDate endDate
            = finish (makeRequest p p.unmarshalFluctuation
                (urlHead f "fluctuation" ++ "&start_date=" ++ startDate
                  ++ "&end_data=" ++ endDate)
                ResponseFluctuation.zero)) := by
  have ht := url_two_dates_contains rt f "timeseries" startDate endDate hs he
  have hf := url_two_dates_contains rt f "fluctuation" startDate endDate hs he
  have hto := url_two_dates rt f "timeseries" startDate endDate hs he
  have hfo := url_two_dates rt f "fluctuation" startDate endDate hs he
  refine ⟨?_, ht.1, ht.2.1, ht.2.2, ?_, hf.1, hf.2.1, hf.2.2, ?_, ?_, ?_⟩
  · rcases hto with ⟨h, -⟩ | ⟨h, -⟩
    · exact Or.inl h
    · exact Or.inr h
  · rcases hfo with ⟨h, -⟩ | ⟨h, -⟩
    · exact Or.inl h
    · exact Or.inr h
  · rcases hto with ⟨h, -⟩ | ⟨h, -⟩
    · left
      intro p
      unfold GetTimeseries finish GetTimeseries.url
      dsimp only
      rw [h]
      generalize makeRequest _ _ _ _ = out
      rcases out with ⟨_ | err, r⟩ <;> rfl
    · right
      intro p
      unfold GetTimeseries finish GetTimeseries.url
      dsimp only
      rw [h]
      generalize makeRequest _ _ _ _ = out
      rcases out with ⟨_ | err, r⟩ <;> rfl
  · rcases hfo with ⟨h, -⟩ | ⟨h, -⟩
    · left
      intro p
      unfold GetFluctuation finish GetFluctuation.url
      dsimp only
      rw [h]
      generalize makeRequest _ _ _ _ = out
      rcases out with ⟨_ | err, r⟩ <;> rfl
    · right
      intro p
      unfold GetFluctuation finish GetFluctuation.url
      dsimp only
      rw [h]
      generalize makeRequest _ _ _ _ = out
      rcases out with ⟨_ | err, r⟩ <;> rfl
  · intro ho p
    have key : ∀ method : String,
        getURL rt f method [("start_date", startDate), ("end_data", endDate)]
          = urlHead f method ++ "&start_date=" ++ startDate ++ "&end_data=" ++ endDate := by
      intro method
      rcases url_two_dates rt f method startDate endDate hs he with ⟨h, -⟩ | ⟨-, ho'⟩
      · exact h
      · rw [ho] at ho'
        have h₁ := congrArg (fun l => (l.map Prod.fst).head?) ho'
        simp at h₁
    constructor
    · unfold GetTimeseries finish GetTimeseries.url
      dsimp only
      rw [key]
      generalize makeRequest _ _ _ _ = out
      rcases out with ⟨_ | err, r⟩ <;> rfl
    · unfold GetFluctuation finish GetFluctuation.url
      dsimp only
      rw [key]
      generalize makeRequest _ _ _ _ = out
      rcases out with ⟨_ | err, r⟩ <;> rfl

/-- Witness of the amended C7: the dates of the example, visited in the
written order, for the URL and for the request of `GetTimeseries` at the
echoing transport. -/
theorem GetTimeseries_url_dates_witness :
    Contains (GetTimeseries.url writtenOrder sampleClient "2024-01-01" "2024-01-02")
      ("start_date=" ++ "2024-01-01" ++ "&end_data=" ++ "2024-01-02")
    ∧ GetTimeseries echoPlatform writtenOrder sampleClient "2024-01-01" "2024-01-02"
      = (none, some
          ⟨"gofixerio error: http://data.fixer.io/api/timeseries?access_key=k&base=EUR&start_date=2024-01-01&end_data=2024-01-02"⟩) :=
  ⟨(GetTimeseries_url_dates writtenOrder sampleClient "2024-01-01" "2024-01-02"
      (by decide) (by decide)).2.2.2.1 rfl,
   ((GetTimeseries_url_dates writtenOrder sampleClient "2024-01-01" "2024-01-02"
      (by decide) (by decide)).2.2.2.2.2.2.2.2.2.2 rfl echoPlatform).1.trans (by decide)⟩

/-! ## Requests and the mapping of errors -/

theorem wrapError_text (text : String) :
    wrapError (errorsNew text) = some ⟨"gofixerio error: " ++ text⟩ := by
  simp [wrapError, errorsWrap, errorsNew, String.append_assoc]

theorem makeRequest_reported {R : Type} (p : Platform)
    (unmarshal : String → R → Option GoError × R) (url body : String) (r : R)
    (e : ResponseError) (hdel : Delivers p url body)
    (hdec : p.unmarshalError body ResponseError.zero = (none, e))
    (hs : e.Success = false) (hc : e.Error.Code ≠ 0) :
    makeRequest p unmarshal url r = (some ⟨apiErrorText e.Error⟩, r) := by
  obtain ⟨response, hget, hread⟩ := hdel
  unfold makeRequest
  simp only [hget, hread, hdec]
  have hcond : (!e.Success && e.Error.Code != 0) = true := by simp [hs, hc]
  rw [if_pos hcond]
  unfold apiErrorText
  by_cases hi : e.Error.Info = ""
  · by_cases ht : e.Error.Type_ = ""
    · simp only [hi, ht, wrapError_text, ne_eq, not_true_eq_false, if_false]
      rw [← String.append_assoc]
      rfl
    · simp only [hi, ht, wrapError_text, ne_eq, not_true_eq_false, not_false_eq_true,
        if_false, if_true]
      rw [← String.append_assoc]
      rfl
  · simp only [hi, wrapError_text, ne_eq, not_false_eq_true, if_true]
    rw [← String.append_assoc]
    rfl

theorem makeRequest_decodes {R : Type} (p : Platform)
    (unmarshal : String → R → Option GoError × R) (url body : String) (r : R)
    (e : ResponseError) (hdel : Delivers p url body)
    (hdec : p.unmarshalError body ResponseError.zero = (none, e))
    (hpass : e.Success = true ∨ e.Error.Code = 0) :
    makeRequest p unmarshal url r
      = (wrapError (unmarshal body r).1, (unmarshal body r).2) := by
  obtain ⟨response, hget, hread⟩ := hdel
  unfold makeRequest
  simp only [hget, hread, hdec]
  have hcond : ¬ ((!e.Success && e.Error.Code != 0) = true) := by
    rcases hpass with h | h <;> simp [h]
  rw [if_neg hcond]
  rcases hu : unmarshal body r with ⟨err, r'⟩
  cases err <;> simp [wrapError, errorsWrap]

theorem finish_reported {R : Type} (p : Platform)
    (unmarshal : String → R → Option GoError × R) (url body : String) (r : R)
    (e : ResponseError) (hdel : Delivers p url body)
    (hdec : p.unmarshalError body ResponseError.zero = (none, e))
    (hs : e.Success = false) (hc : e.Error.Code ≠ 0) :
    finish (makeRequest p unmarshal url r) = (none, some ⟨apiErrorText e.Error⟩) := by
  rw [makeRequest_reported p unmarshal url body r e hdel hdec hs hc]
  rfl

theorem finish_exactly_one {R : Type} (out : Option GoError × R) : ExactlyOne (finish out) := by
  rcases out with ⟨err, r⟩
  cases err
  · exact Or.inr ⟨by simp [finish], rfl⟩
  · exact Or.inl ⟨rfl, by simp [finish]⟩

theorem finish_gated {R : Type} (p : Platform)
    (unmarshal : String → R → Option GoError × R) (url body : String) (r : R)
    (e : ResponseError) (hdel : Delivers p url body)
    (hdec : p.unmarshalError body ResponseError.zero = (none, e)) :
    GatedBy (finish (makeRequest p unmarshal url r)) e (unmarshal body r) := by
  by_cases hpass : e.Success = true ∨ e.Error.Code = 0
  · have hm := makeRequest_decodes p unmarshal url body r e hdel hdec hpass
    rw [hm]
    refine ⟨fun _ => hpass, ?_, ?_, ?_⟩
    · intro hs hc
      rcases hpass with h | h
      · rw [hs] at h
        exact absurd h (by decide)
      · exact absurd h hc
    · intro _ hnone
      rw [hnone]
      rfl
    · intro _ hsome
      cases hd : (unmarshal body r).1 with
      | none => exact absurd hd hsome
      | some err => simp [finish, wrapError, errorsWrap]
  · have hs : e.Success = false := by
      cases h : e.Success
      · rfl
      · exact absurd (Or.inl h) hpass
    have hc : e.Error.Code ≠ 0 := fun h => hpass (Or.inr h)
    rw [finish_reported p unmarshal url body r e hdel hdec hs hc]
    refine ⟨?_, ?_, ?_, ?_⟩
    · intro h
      exact absurd rfl h
    · intro _ _
      exact ⟨rfl, by simp⟩
    · intro h
      exact absurd h hpass
    · intro h
      exact absurd h hpass

/-- C4: when the body decodes to an envelope with `success` false and a
non-zero code, `makeRequest` returns an error and leaves the result record
untouched, whatever the decoder of the record, and every query method returns
that error and no record. The text is `gofixerio error: fixer.io request error
with info: ` and the info if the info is non-empty, else `... with type: ` and
the type if the type is non-empty, else `... with code: ` and the code in
decimal (`104` for code 104, `-3` for code -3). -/
theorem makeRequest_api_error (p : Platform) (formatFloat : Float64 → String) (rt : MapRange)
    (f : FixerIO) (body : String) (e : ResponseError)
    (hdec : p.unmarshalError body ResponseError.zero = (none, e))
    (hs : e.Success = false) (hc : e.Error.Code ≠ 0) :
    (∀ (R : Type) (unmarshal : String → R → Option GoError × R) (url : String) (r : R),
      Delivers p url body →
      makeRequest p unmarshal url r = (some ⟨apiErrorText e.Error⟩, r))
    ∧ (Delivers p (GetSymbols.url rt f) body →
        GetSymbols p rt f = (none, some ⟨apiErrorText e.Error⟩))
    ∧ (∀ symbols : List String, Delivers p (GetLatest.url rt f symbols) body →
        GetLatest p rt f symbols = (none, some ⟨apiErrorText e.Error⟩))
    ∧ (∀ (date : String) (symbols : List String),
        Delivers p (GetHistorical.url rt f date symbols) body →
        GetHistorical p rt f date symbols = (none, some ⟨apiErrorText e.Error⟩))
    ∧ (∀ (src dst : String) (amount : Float64) (date : String),
        Delivers p (GetConversion.url formatFloat rt f src dst amount date) body →
        GetConversion p formatFloat rt f src dst amount date
          = (none, some ⟨apiErrorText e.Error⟩))
    ∧ (∀ startDate endDate : String,
        Delivers p (GetTimeseries.url rt f startDate endDate) body →
        GetTimeseries p rt f startDate endDate = (none, some ⟨apiErrorText e.Error⟩))
    ∧ (∀ startDate endDate : String,
        Delivers p (GetFluctuation.url rt f startDate endDate) body →
        GetFluctuation p rt f startDate endDate = (none, some ⟨apiErrorText e.Error⟩))
    ∧ (e.Error.Info ≠ "" →
        apiErrorText e.Error
          = "gofixerio error: fixer.io request error with info: " ++ e.Error.Info)
    ∧ (e.Error.Info = "" → e.Error.Type_ ≠ "" →
        apiErrorText e.Error
          = "gofixerio error: fixer.io request error with type: " ++ e.Error.Type_)
    ∧ (e.Error.Info = "" → e.Error.Type_ = "" →
        apiErrorText e.Error
          = "gofixerio error: fixer.io request error with code: " ++ Itoa e.Error.Code)
    ∧ apiErrorText ⟨104, "", ""⟩ = "gofixerio error: fixer.io request error with code: 104"
    ∧ apiErrorText ⟨-3, "", ""⟩ = "gofixerio error: fixer.io request error with code: -3" := by
  refine ⟨?_, ?_, ?_, ?_, ?_, ?_, ?_, ?_, ?_, ?_, by decide, by decide⟩
  · intro R unmarshal url r hdel
    exact makeRequest_reported p unmarshal url body r e hdel hdec hs hc
  · intro hdel
    rw [GetSymbols_eq]
    exact finish_reported p _ _ body _ e hdel hdec hs hc
  · intro symbols hdel
    rw [GetLatest_eq]
    exact finish_reported p _ _ body _ e hdel hdec hs hc
  · intro date symbols hdel
    rw [GetHistorical_eq]
    exact finish_reported p _ _ body _ e hdel hdec hs hc
  · intro src dst amount date hdel
    rw [GetConversion_eq]
    exact finish_reported p _ _ body _ e hdel hdec hs hc
  · intro startDate endDate hdel
    rw [GetTimeseries_eq]
    exact finish_reported p _ _ body _ e hdel hdec hs hc
  · intro startDate endDate hdel
    rw [GetFluctuation_eq]
    exact finish_reported p _ _ body _ e hdel hdec hs hc
  · intro hi
    simp [apiErrorText, hi]
  · intro hi ht
    simp [apiErrorText, hi, ht]
  · intro hi ht
    simp [apiErrorText, hi, ht]

/-- Witness of C4: a conversion answered with the plan-limit body. -/
theorem makeRequest_api_error_witness :
    GetConversion (syntheticPlatform planLimitBody) sampleFormatFloat writtenOrder sampleClient
        "USD" "EUR" ⟨0x4059000000000000⟩ "2024-01-01"
      = (none, some ⟨apiErrorText planLimitEnvelope.Error⟩)
    ∧ apiErrorText planLimitEnvelope.Error
      = "gofixerio error: fixer.io request error with info: " ++ "plan limit" :=
  ⟨(makeRequest_api_error (syntheticPlatform planLimitBody) sampleFormatFloat writtenOrder
      sampleClient planLimitBody planLimitEnvelope (by decide) rfl (by decide)).2.2.2.2.1
      "USD" "EUR" ⟨0x4059000000000000⟩ "2024-01-01" ⟨(), rfl, rfl⟩,
   (makeRequest_api_error (syntheticPlatform planLimitBody) sampleFormatFloat writtenOrder
      sampleClient planLimitBody planLimitEnvelope (by decide) rfl (by decide)).2.2.2.2.2.2.2.1
      (by decide)⟩

/-- C5, refuted as stated: with a transport that returns the plan-limit body,
the error of `GetSymbols` has the text `gofixerio error: fixer.io request error
with info: plan limit`, not `plan limit`; with the invalid-key body it has the
text `gofixerio error: fixer.io request error with type: invalid_access_key`,
not `invalid_access_key`. -/
theorem GetSymbols_error_text_counterexample :
    sampleUnmarshalError planLimitBody ResponseError.zero = (none, planLimitEnvelope)
    ∧ GetSymbols (syntheticPlatform planLimitBody) writtenOrder sampleClient
      = (none, some ⟨"gofixerio error: fixer.io request error with info: plan limit"⟩)
    ∧ (GetSymbols (syntheticPlatform planLimitBody) writtenOrder sampleClient).2
      ≠ some ⟨"plan limit"⟩
    ∧ sampleUnmarshalError invalidKeyBody ResponseError.zero = (none, invalidKeyEnvelope)
    ∧ GetSymbols (syntheticPlatform invalidKeyBody) writtenOrder sampleClient
      = (none, some ⟨"gofixerio error: fixer.io request error with type: invalid_access_key"⟩)
    ∧ (GetSymbols (syntheticPlatform invalidKeyBody) writtenOrder sampleClient).2
      ≠ some ⟨"invalid_access_key"⟩ := by
  decide

theorem all_queries_fail (p : Platform) (formatFloat : Float64 → String) (rt : MapRange)
    (f : FixerIO) (body : String) (e : ResponseError)
    (hget : ∀ url : String, Delivers p url body)
    (hdec : p.unmarshalError body ResponseError.zero = (none, e))
    (hs : e.Success = false) (hc : e.Error.Code ≠ 0) :
    AllQueriesFail p formatFloat rt f (apiErrorText e.Error) := by
  refine ⟨?_, ?_, ?_, ?_, ?_, ?_⟩
  · rw [GetSymbols_eq]
    exact finish_reported p _ _ body _ e (hget _) hdec hs hc
  · intro symbols
    rw [GetLatest_eq]
    exact finish_reported p _ _ body _ e (hget _) hdec hs hc
  · intro date symbols
    rw [GetHistorical_eq]
    exact finish_reported p _ _ body _ e (hget _) hdec hs hc
  · intro src dst amount date
    rw [GetConversion_eq]
    exact finish_reported p _ _ body _ e (hget _) hdec hs hc
  · intro startDate endDate
    rw [GetTimeseries_eq]
    exact finish_reported p _ _ body _ e (hget _) hdec hs hc
  · intro startDate endDate
    rw [GetFluctuation_eq]
    exact finish_reported p _ _ body _ e (hget _) hdec hs hc

/-- C5, amended: with a transport that returns a body decoding to the envelope
with `success` false, code 104 and info `plan limit`, every query method
returns no record and an error with the text `gofixerio error: fixer.io request
error with info: plan limit`; when the info is empty and the type is
`invalid_access_key` the text is `gofixerio error: fixer.io request error with
type: invalid_access_key`. -/
theorem queries_plan_limit_text (p : Platform) (formatFloat : Float64 → String)
    (rt : MapRange) (f : FixerIO) (body : String)
    (hget : ∀ url : String, Delivers p url body) :
    (p.unmarshalError body ResponseError.zero = (none, planLimitEnvelope) →
      AllQueriesFail p formatFloat rt f
        "gofixerio error: fixer.io request error with info: plan limit")
    ∧ (p.unmarshalError body ResponseError.zero = (none, invalidKeyEnvelope) →
      AllQueriesFail p formatFloat rt f
        "gofixerio error: fixer.io request error with type: invalid_access_key") := by
  constructor
  · intro hdec
    exact all_queries_fail p formatFloat rt f body planLimitEnvelope hget hdec rfl (by decide)
  · intro hdec
    exact all_queries_fail p formatFloat rt f body invalidKeyEnvelope hget hdec rfl (by decide)

/-- Witness of the amended C5 at the two synthetic transports. -/
theorem queries_plan_limit_text_witness :
    AllQueriesFail (syntheticPlatform planLimitBody) sampleFormatFloat writtenOrder sampleClient
        "gofixerio error: fixer.io request error with info: plan limit"
    ∧ AllQueriesFail (syntheticPlatform invalidKeyBody) sampleFormatFloat reversedOrder
        sampleClient "gofixerio error: fixer.io request error with type: invalid_access_key" :=
  ⟨(queries_plan_limit_text (syntheticPlatform planLimitBody) sampleFormatFloat writtenOrder
      sampleClient planLimitBody (fun _ => ⟨(), rfl, rfl⟩)).1 (by decide),
   (queries_plan_limit_text (syntheticPlatform invalidKeyBody) sampleFormatFloat reversedOrder
      sampleClient invalidKeyBody (fun _ => ⟨(), rfl, rfl⟩)).2 (by decide)⟩

/-- C6, refuted as stated: the body `{}` decodes to an envelope with
`success` false and code 0, and `GetSymbols` returns a result record and no
error for it. -/
theorem GetSymbols_empty_object_counterexample :
    sampleUnmarshalError emptyObjectBody ResponseError.zero = (none, ResponseError.zero)
    ∧ ResponseError.zero.Success = false
    ∧ ResponseError.zero.Error.Code = 0
    ∧ GetSymbols (syntheticPlatform emptyObjectBody) writtenOrder sampleClient
      = (some ResponseSymbols.zero, none) := by
  decide

/-- C6, amended: for every body that decodes as an envelope, each query method
returns a result record only if the envelope has `success` true or error code
zero; when `success` is false and the code is non-zero it returns an error and
no record; in every other case it decodes the body into the record and returns
the record with no error when that succeeds, and the wrapped decoding error
with no record when it fails. -/
theorem queries_gated_by_envelope (p : Platform) (formatFloat : Float64 → String)
    (rt : MapRange) (f : FixerIO) (body : String) (e : ResponseError)
    (hdec : p.unmarshalError body ResponseError.zero = (none, e)) :
    (Delivers p (GetSymbols.url rt f) body →
      GatedBy (GetSymbols p rt f) e (p.unmarshalSymbols body ResponseSymbols.zero))
    ∧ (∀ symbols : List String, Delivers p (GetLatest.url rt f symbols) body →
        GatedBy (GetLatest p rt f symbols) e (p.unmarshalLatest body ResponseLatest.zero))
    ∧ (∀ (date : String) (symbols : List String),
        Delivers p (GetHistorical.url rt f date symbols) body →
        GatedBy (GetHistorical p rt f date symbols) e
          (p.unmarshalHistorical body ResponseHistorical.zero))
    ∧ (∀ (src dst : String) (amount : Float64) (date : String),
        Delivers p (GetConversion.url formatFloat rt f src dst amount date) body →
        GatedBy (GetConversion p formatFloat rt f src dst amount date) e
          (p.unmarshalConversion body ResponseConversion.zero))
    ∧ (∀ startDate endDate : String,
        Delivers p (GetTimeseries.url rt f startDate endDate) body →
        GatedBy (GetTimeseries p rt f startDate endDate) e
          (p.unmarshalTimeseries body ResponseTimeseries.zero))
    ∧ (∀ startDate endDate : String,
        Delivers p (GetFluctuation.url rt f startDate endDate) body →
        GatedBy (GetFluctuation p rt f startDate endDate) e
          (p.unmarshalFluctuation body ResponseFluctuation.zero)) := by
  refine ⟨?_, ?_, ?_, ?_, ?_, ?_⟩
  · intro hdel
    rw [GetSymbols_eq]
    exact finish_gated p _ _ body _ e hdel hdec
  · intro symbols hdel
    rw [GetLatest_eq]
    exact finish_gated p _ _ body _ e hdel hdec
  · intro date symbols hdel
    rw [GetHistorical_eq]
    exact finish_gated p _ _ body _ e hdel hdec
  · intro src dst amount date hdel
    rw [GetConversion_eq]
    exact finish_gated p _ _ body _ e hdel hdec
  · intro startDate endDate hdel
    rw [GetTimeseries_eq]
    exact finish_gated p _ _ body _ e hdel hdec
  · intro startDate endDate hdel
    rw [GetFluctuation_eq]
    exact finish_gated p _ _ body _ e hdel hdec

/-- Witness of the amended C6: the latest rates answered with the invalid-key
body. -/
theorem queries_gated_by_envelope_witness :
    GatedBy (GetLatest (syntheticPlatform invalidKeyBody) writtenOrder sampleClient ["USD"])
      invalidKeyEnvelope
      ((syntheticPlatform invalidKeyBody).unmarshalLatest invalidKeyBody ResponseLatest.zero) :=
  (queries_gated_by_envelope (syntheticPlatform invalidKeyBody) sampleFormatFloat writtenOrder
    sampleClient invalidKeyBody invalidKeyEnvelope (by decide)).2.1 ["USD"] ⟨(), rfl, rfl⟩

/-- C10: for every query method and every outcome of transport and decoders,
the method returns either an error and no result record, or a result record
and no error: never both and never neither. -/
theorem queries_result_xor_error (p : Platform) (formatFloat : Float64 → String)
    (rt : MapRange) (f : FixerIO) :
    ExactlyOne (GetSymbols p rt f)
    ∧ (∀ symbols : List String, ExactlyOne (GetLatest p rt f symbols))
    ∧ (∀ (date : String) (symbols : List String),
        ExactlyOne (GetHistorical p rt f date symbols))
    ∧ (∀ (src dst : String) (amount : Float64) (date : String),
        ExactlyOne (GetConversion p formatFloat rt f src dst amount date))
    ∧ (∀ startDate endDate : String, ExactlyOne (GetTimeseries p rt f startDate endDate))
    ∧ (∀ startDate endDate : String, ExactlyOne (GetFluctuation p rt f startDate endDate)) := by
  refine ⟨?_, ?_, ?_, ?_, ?_, ?_⟩
  · rw [GetSymbols_eq]
    exact finish_exactly_one _
  · intro symbols
    rw [GetLatest_eq]
    exact finish_exactly_one _
  · intro date symbols
    rw [GetHistorical_eq]
    exact finish_exactly_one _
  · intro src dst amount date
    rw [GetConversion_eq]
    exact finish_exactly_one _
  · intro startDate endDate
    rw [GetTimeseries_eq]
    exact finish_exactly_one _
  · intro startDate endDate
    rw [GetFluctuation_eq]
    exact finish_exactly_one _

end gofixerio
